import Mathlib

/-!
Shallow embedding of the Skull King bot-competition repository
(`main.py`, `example_bots.py`) together with the parts of the game core
that the reviewed sources reference (`cards.py`, `game_engine.py`,
`player.py` are not among the reviewed sources; where a claim depends on
them the corresponding definition is modelled from the specification and
marked as such in its doc comment).

Python's `random` calls are modelled by threading an explicit seed
argument: `random.randint(a, b)` becomes a seed-determined value in
`[a, b]`, and `random.choice(xs)` becomes a seed-determined element of
`xs` (with `none` for the empty list, where Python raises `IndexError`).
Python exceptions raised by a bot's decision call are modelled with
`Except String`.
-/

namespace SkullKing

/-- Card categories of `cards.CardType` used by the reviewed sources. -/
inductive CardType where
  | NUMBER
  | ESCAPE
  | PIRATE
  | MERMAID
  | SKULL_KING
deriving DecidableEq, Repr

/-- Suits of `cards.Suit`; one of them is designated trump. -/
inductive Suit where
  | BLACK
  | YELLOW
  | GREEN
  | PURPLE
deriving DecidableEq, Repr

/-- `cards.Card`: immutable value identified by type, suit and value.
Non-NUMBER cards carry no meaningful suit. -/
structure Card where
  card_type : CardType
  suit : Option Suit
  value : Int
deriving DecidableEq, Repr

/-- `player.Player`: identity-based equality (hashable object identity),
modelled by an opaque numeric identity token. -/
structure Player where
  pid : Nat
deriving DecidableEq, Repr

/-- Model of `random.randint a b`: a seed-determined integer in `[a, b]`
(Python guarantees the result lies in the closed interval). -/
def randint (a b : Int) (seed : Nat) : Int :=
  a + (seed : Int) % (b - a + 1)

/-- Model of `random.choice xs`: a seed-determined element of `xs`;
`none` models the `IndexError` Python raises on an empty sequence. -/
def randomChoice (xs : List α) (seed : Nat) : Option α :=
  xs.get? (seed % xs.length)

/-- `sum(1 for card in hand if card.card_type == CardType.ESCAPE)`
(example_bots.py line 52). -/
def countEscapes (hand : List Card) : Nat :=
  (hand.filter fun c => c.card_type == CardType.ESCAPE).length

/-- `card.card_type in [PIRATE, MERMAID, SKULL_KING] or (card.card_type ==
NUMBER and card.value >= 10)` (example_bots.py lines 83-86). -/
def isStrong (c : Card) : Bool :=
  c.card_type == CardType.PIRATE || c.card_type == CardType.MERMAID ||
    c.card_type == CardType.SKULL_KING ||
    (c.card_type == CardType.NUMBER && decide (10 ≤ c.value))

/-- Number of strong cards in the hand (example_bots.py lines 83-86). -/
def countStrong (hand : List Card) : Nat :=
  (hand.filter isStrong).length

/-- `RandomBot.make_bid` (example_bots.py lines 32-34):
`random.randint(0, round_num)`. -/
def RandomBot.make_bid (hand : List Card) (round_num : Int)
    (previous_bids : List (Player × Int)) (seed : Nat) : Int :=
  let _ := hand
  let _ := previous_bids
  randint 0 round_num seed

/-- `ConservativeBot.make_bid` (example_bots.py lines 49-56): bid 0 when
the escapes in hand reach `round_num`, else `min(1, round_num)`. -/
def ConservativeBot.make_bid (hand : List Card) (round_num : Int)
    (previous_bids : List (Player × Int)) : Int :=
  let _ := previous_bids
  if (countEscapes hand : Int) ≥ round_num then 0
  else min 1 round_num

/-- `AggressiveBot.make_bid` (example_bots.py lines 81-88):
`max(1, min(strong_cards, round_num))`. -/
def AggressiveBot.make_bid (hand : List Card) (round_num : Int)
    (previous_bids : List (Player × Int)) : Int :=
  let _ := previous_bids
  max 1 (min (countStrong hand : Int) round_num)

/-- Model of Python `min(xs, key=k)` on the non-empty list `h :: t`
(first element with minimal key, earlier elements kept on ties). -/
def pyMinBy (k : Card → Int) (h : Card) (t : List Card) : Card :=
  t.foldl (fun acc c => if k c < k acc then c else acc) h

/-- Model of Python `max(xs, key=k)` on the non-empty list `h :: t`
(first element with maximal key, earlier elements kept on ties). -/
def pyMaxBy (k : Card → Int) (h : Card) (t : List Card) : Card :=
  t.foldl (fun acc c => if k acc < k c then c else acc) h

/-- `DummyPlayer.play_card` (example_bots.py lines 20-23):
`random.choice(hand)`. -/
def DummyPlayer.play_card (hand : List Card)
    (current_trick : List (Player × Card))
    (previous_tricks : List (List (Player × Card)))
    (bids tricks_won : Player → Int) (round_num : Int) (seed : Nat) :
    Option Card :=
  let _ := (current_trick, previous_tricks, bids, tricks_won, round_num)
  randomChoice hand seed

/-- `RandomBot.play_card` (example_bots.py lines 36-40):
`random.choice(hand)`. -/
def RandomBot.play_card (hand : List Card)
    (current_trick : List (Player × Card))
    (previous_tricks : List (List (Player × Card)))
    (bids tricks_won : Player → Int) (round_num : Int) (seed : Nat) :
    Option Card :=
  let _ := (current_trick, previous_tricks, bids, tricks_won, round_num)
  randomChoice hand seed

/-- `ConservativeBot.play_card` (example_bots.py lines 58-72): first
escape card if any, else the lowest numbered card, else random. -/
def ConservativeBot.play_card (hand : List Card)
    (current_trick : List (Player × Card))
    (previous_tricks : List (List (Player × Card)))
    (bids tricks_won : Player → Int) (round_num : Int) (seed : Nat) :
    Option Card :=
  let _ := (current_trick, previous_tricks, bids, tricks_won, round_num)
  match hand.filter fun c => c.card_type == CardType.ESCAPE with
  | e :: _ => some e
  | [] =>
    match hand.filter fun c => c.card_type == CardType.NUMBER with
    | n :: ns => some (pyMinBy Card.value n ns)
    | [] => randomChoice hand seed

/-- `AggressiveBot.play_card` (example_bots.py lines 90-121): when
tricks are still needed and a trick is under way, the first Skull King
in hand, else the first Pirate, else the first special card, else the
highest numbered card; otherwise the first escape, else the lowest
numbered card; `random.choice(hand)` as final fallback either way. -/
def AggressiveBot.play_card (self : Player) (hand : List Card)
    (current_trick : List (Player × Card))
    (previous_tricks : List (List (Player × Card)))
    (bids tricks_won : Player → Int) (round_num : Int) (seed : Nat) :
    Option Card :=
  let _ := (previous_tricks, round_num)
  let tricks_needed := bids self - tricks_won self
  if 0 < tricks_needed ∧ current_trick ≠ [] then
    match hand.filter fun c =>
        c.card_type == CardType.SKULL_KING ||
        c.card_type == CardType.PIRATE ||
        c.card_type == CardType.MERMAID with
    | s :: rest =>
      match (s :: rest).find? fun c => c.card_type == CardType.SKULL_KING with
      | some c => some c
      | none =>
        match (s :: rest).find? fun c => c.card_type == CardType.PIRATE with
        | some c => some c
        | none => some s
    | [] =>
      match hand.filter fun c => c.card_type == CardType.NUMBER with
      | n :: ns => some (pyMaxBy Card.value n ns)
      | [] => randomChoice hand seed
  else
    match hand.filter fun c => c.card_type == CardType.ESCAPE with
    | e :: _ => some e
    | [] =>
      match hand.filter fun c => c.card_type == CardType.NUMBER with
      | n :: ns => some (pyMinBy Card.value n ns)
      | [] => randomChoice hand seed

/-- The card actually played by the trick loop of
`run_competition_headless` (main.py lines 151-155): the card returned by
the bot when it is legal, else `legal_cards[0] if legal_cards else
hand[0]` (`none` models the `IndexError` of `hand[0]` on an empty hand). -/
def substitutePlayedCard (card : Card) (legal_cards hand : List Card) :
    Option Card :=
  if card ∈ legal_cards then some card
  else
    match legal_cards with
    | l :: _ => some l
    | [] => hand.head?

/-- One pass of the `try` block of the trick loop in
`run_competition_headless` (main.py lines 141-158): the bot's
`play_card` decision either returns a card (then the legality
substitution is applied and the resulting card is played) or raises
(then the `except` branch prints the error and breaks out of the trick
loop, playing no card — modelled by `none`). -/
def trickPlayStep (decision : Except String Card)
    (legal_cards hand : List Card) : Option Card :=
  match decision with
  | Except.ok card => substitutePlayedCard card legal_cards hand
  | Except.error _ => none

/-- The ordered final report of `run_competition_with_gui` (main.py
lines 93-95): `sorted(final_scores.items(), key=lambda x: x[1],
reverse=True)`, a stable descending sort on the score component. -/
def sortedScores (scores : List (Player × Int)) : List (Player × Int) :=
  scores.mergeSort fun a b => b.2 ≤ a.2

/-- The final-score line printed by `run_competition_headless` (main.py
line 174): `[(p.name, final_scores[p]) for p in bots]`, i.e. the pairs
in bot-list order. -/
def headlessFinalReport (bots : List Player) (final_scores : Player → Int) :
    List (Player × Int) :=
  bots.map fun p => (p, final_scores p)

/-- The state constructed by `SkullKingGame(bots, num_rounds)` once an
entry point passes its player-count guard. -/
structure GameInit where
  players : List Player
  num_rounds : Int
deriving DecidableEq, Repr

/-- Guard of `run_competition_with_gui` (main.py lines 63-75): with
fewer than 2 bots it prints an error and returns before any game state
exists (`none`); otherwise it constructs `SkullKingGame(bots,
num_rounds)` over exactly the given list. -/
def run_competition_with_gui (bots : List Player) (num_rounds : Int) :
    Option GameInit :=
  if bots.length < 2 then none
  else some ⟨bots, num_rounds⟩

/-- Guard of `run_competition_headless` (main.py lines 99-113): the same
player-count guard, then `SkullKingGame(bots, num_rounds)` per game. -/
def run_competition_headless (bots : List Player) (num_rounds : Int) :
    Option GameInit :=
  if bots.length < 2 then none
  else some ⟨bots, num_rounds⟩

/-- Modelled from the spec: comparison of two NUMBER cards (section 4.1
rule 4) — trump beats non-trump, higher value within a suit, and a card
neither trump nor of the led suit cannot win. The module implementing
this (`game_engine.py` / `cards.py`) is not among the reviewed sources. -/
def numberBeats (c i : Card) (ledSuit : Option Suit) (trump : Suit) : Bool :=
  if c.suit == some trump then
    if i.suit == some trump then decide (i.value < c.value)
    else true
  else if i.suit == some trump then false
  else if c.suit != ledSuit then false
  else if c.suit == i.suit then decide (i.value < c.value)
  else true

/-- Modelled from the spec: whether a newly played card takes the trick
from the card currently winning it, per the ranking rules of section 4.1
(`game_engine.py` is not among the reviewed sources). On equal rank the
incumbent — the card played earlier — keeps the trick (the section 4.1
tie-break). -/
def beats (challenger incumbent : Card) (ledSuit : Option Suit)
    (trump : Suit) : Bool :=
  match challenger.card_type, incumbent.card_type with
  | CardType.ESCAPE, _ => false
  | _, CardType.ESCAPE => true
  | CardType.SKULL_KING, CardType.MERMAID => false
  | CardType.SKULL_KING, CardType.SKULL_KING => false
  | CardType.SKULL_KING, _ => true
  | CardType.MERMAID, CardType.SKULL_KING => true
  | CardType.MERMAID, CardType.PIRATE => false
  | CardType.MERMAID, CardType.MERMAID => false
  | CardType.MERMAID, CardType.NUMBER => true
  | CardType.PIRATE, CardType.SKULL_KING => false
  | CardType.PIRATE, CardType.PIRATE => false
  | CardType.PIRATE, CardType.MERMAID => true
  | CardType.PIRATE, CardType.NUMBER => true
  | CardType.NUMBER, CardType.SKULL_KING => false
  | CardType.NUMBER, CardType.PIRATE => false
  | CardType.NUMBER, CardType.MERMAID => false
  | CardType.NUMBER, CardType.NUMBER => numberBeats challenger incumbent ledSuit trump

/-- The suit led in a trick: the suit of the first NUMBER card played. -/
def ledSuitOf (cards : List Card) : Option Suit :=
  (cards.find? fun c => c.card_type == CardType.NUMBER).bind Card.suit

/-- Modelled from the spec: pure trick resolution (section 4.1), a
card-by-card left-to-right evaluation of the ordered (player, card) list
returning the winning player; the first-played card starts as incumbent,
so among equal-ranked cards the earlier one is preferred
(`game_engine.py` is not among the reviewed sources). -/
def trick_winner (trick : List (Player × Card)) (trump : Suit) :
    Option Player :=
  match trick with
  | [] => none
  | (p, c) :: rest =>
    let ledSuit := ledSuitOf (c :: rest.map Prod.snd)
    some (rest.foldl
      (fun w pc => if beats pc.2 w.2 ledSuit trump then pc else w)
      (p, c)).1

/-- Modelled from the spec: the base round scoring rule of section 4.3
(`game_engine.calculate_scores` is not among the reviewed sources).
`bonus` is the card-value bonus tally for tricks won in the round, only
paid out on an exact non-zero bid. -/
def calculate_score (round_num bid tricks_won bonus : Int) : Int :=
  if bid = 0 then
    if tricks_won = 0 then 20 * round_num
    else -10 * round_num * tricks_won
  else
    if tricks_won = bid then 20 * bid + bonus
    else -10 * |bid - tricks_won|

/-- A special card of the given type (no suit, no meaningful value). -/
def specialCard (t : CardType) : Card :=
  ⟨t, none, 0⟩

/-! ## Helper lemmas -/

/-- `random.choice` on the empty list yields no card. -/
theorem randomChoice_nil (seed : Nat) :
    randomChoice ([] : List Card) seed = none := rfl

/-- `random.choice` on a non-empty list yields an element of the list. -/
theorem randomChoice_mem {xs : List Card} (hne : xs ≠ []) (seed : Nat) :
    ∃ c, randomChoice xs seed = some c ∧ c ∈ xs := by
  have hlen : 0 < xs.length := List.length_pos.mpr hne
  have hlt : seed % xs.length < xs.length := Nat.mod_lt _ hlen
  exact ⟨xs.get ⟨seed % xs.length, hlt⟩,
    by simp [randomChoice, List.get?_eq_get hlt], List.get_mem _ _ _⟩

/-- A left fold that at each step keeps either the accumulator or the
new element stays inside the initial element and the list. -/
theorem foldl_pick_mem {α : Type} (g : α → α → α)
    (hg : ∀ a c, g a c = a ∨ g a c = c) (h : α) (t : List α) :
    t.foldl g h ∈ h :: t := by
  induction t generalizing h with
  | nil => simp
  | cons a t ih =>
    rw [List.foldl_cons]
    rcases hg h a with he | he <;> rw [he]
    · rcases List.mem_cons.mp (ih h) with h1 | h1
      · rw [h1]; exact List.mem_cons_self _ _
      · exact List.mem_cons_of_mem _ (List.mem_cons_of_mem _ h1)
    · exact List.mem_cons_of_mem _ (ih a)

/-- Python `min(xs, key=k)` returns an element of `xs`. -/
theorem pyMinBy_mem (k : Card → Int) (h : Card) (t : List Card) :
    pyMinBy k h t ∈ h :: t :=
  foldl_pick_mem _ (fun a c => by by_cases hc : k c < k a <;> simp [hc]) h t

/-- Python `max(xs, key=k)` returns an element of `xs`. -/
theorem pyMaxBy_mem (k : Card → Int) (h : Card) (t : List Card) :
    pyMaxBy k h t ∈ h :: t :=
  foldl_pick_mem _ (fun a c => by by_cases hc : k a < k c <;> simp [hc]) h t

/-! ## Claims -/

/-- C1: as long as the legal-card list is non-empty (the spec guarantees
`get_legal_cards` is never empty on a non-empty hand), the trick loop of
`run_competition_headless` plays the bot's card unchanged when it is
legal, substitutes element 0 of the legal-card list when it is not, and
never plays an illegal returned card. -/
theorem C1_illegal_card_substituted (card : Card) (legal_cards hand : List Card)
    (hne : legal_cards ≠ []) :
    (card ∈ legal_cards →
      substitutePlayedCard card legal_cards hand = some card) ∧
    (card ∉ legal_cards →
      substitutePlayedCard card legal_cards hand = legal_cards.head? ∧
      substitutePlayedCard card legal_cards hand ≠ some card) := by
  rcases legal_cards with _ | ⟨l, ls⟩
  · exact absurd rfl hne
  constructor
  · intro hmem
    simp [substitutePlayedCard, hmem]
  · intro hnot
    have hsub : substitutePlayedCard card (l :: ls) hand = some l := by
      simp [substitutePlayedCard, hnot]
    refine ⟨by simpa using hsub, ?_⟩
    rw [hsub]
    intro heq
    have hlc : l = card := by injection heq
    exact hnot (by rw [← hlc]; exact List.mem_cons_self _ _)

/-- C1 witness: an illegal Pirate is replaced by the first (and only)
legal card, here an Escape. -/
theorem C1_witness :
    substitutePlayedCard (specialCard CardType.PIRATE)
        [specialCard CardType.ESCAPE] [] =
      ([specialCard CardType.ESCAPE] : List Card).head? :=
  ((C1_illegal_card_substituted (specialCard CardType.PIRATE)
      [specialCard CardType.ESCAPE] [] (by decide)).2 (by decide)).1

/-- C2 counterexample: the claim predicts that a throwing `play_card`
decision is replaced by playing the first legal card; at this concrete
input (one legal Escape card) the `except` branch of
`run_competition_headless` instead plays no card at all and breaks out
of the trick loop. -/
theorem C2_counterexample :
    trickPlayStep (Except.error "boom") [specialCard CardType.ESCAPE]
        [specialCard CardType.ESCAPE] ≠
      some (specialCard CardType.ESCAPE) := by
  simp [trickPlayStep]

/-- C2 (amended): every exception raised from a bot's `play_card`
decision is caught by the `except` branch — it is not propagated, but no
substitute card is played either: the trick loop is exited with no card
played; only a normally returned card goes through the legality
substitution and gets played. -/
theorem C2_exception_breaks_trick_loop (e : String)
    (legal_cards hand : List Card) :
    trickPlayStep (Except.error e) legal_cards hand = none ∧
    ∀ card : Card, trickPlayStep (Except.ok card) legal_cards hand =
      substitutePlayedCard card legal_cards hand :=
  ⟨rfl, fun _ => rfl⟩

/-- C5: both entry points reject a bot list with fewer than 2 players
before any game state is constructed, and with at least 2 players they
construct a game over exactly the given list. -/
theorem C5_two_player_guard (bots : List Player) (num_rounds : Int) :
    (bots.length < 2 →
      run_competition_with_gui bots num_rounds = none ∧
      run_competition_headless bots num_rounds = none) ∧
    (2 ≤ bots.length →
      run_competition_with_gui bots num_rounds = some ⟨bots, num_rounds⟩ ∧
      run_competition_headless bots num_rounds = some ⟨bots, num_rounds⟩) := by
  constructor
  · intro h
    exact ⟨by simp [run_competition_with_gui, h],
      by simp [run_competition_headless, h]⟩
  · intro h
    have h2 : ¬ bots.length < 2 := by omega
    exact ⟨by simp [run_competition_with_gui, h2],
      by simp [run_competition_headless, h2]⟩

/-- C5 witness: one bot is rejected, two bots yield a game over exactly
that list. -/
theorem C5_witness :
    run_competition_with_gui [⟨0⟩] 10 = none ∧
    run_competition_headless [⟨0⟩, ⟨1⟩] 10 = some ⟨[⟨0⟩, ⟨1⟩], 10⟩ :=
  ⟨((C5_two_player_guard [⟨0⟩] 10).1 (by decide)).1,
   ((C5_two_player_guard [⟨0⟩, ⟨1⟩] 10).2 (by decide)).2⟩

/-- C3 counterexample: with `round_num = 0` (allowed by the claim, which
quantifies over `round_num ≥ 0`), `AggressiveBot.make_bid` returns
`max(1, min(strong_cards, 0)) = 1`, outside `[0, 0]`. -/
theorem C3_counterexample :
    ¬ (0 ≤ AggressiveBot.make_bid [] 0 [] ∧
        AggressiveBot.make_bid [] 0 [] ≤ 0) := by
  decide

/-- C3 (amended): for every `round_num ≥ 1` — the values a match
actually uses — all three bots bid within `[0, round_num]`.
(RandomBot and ConservativeBot do so for every `round_num ≥ 0`, but
AggressiveBot bids 1 when `round_num = 0`.) -/
theorem C3_bids_in_range (hand : List Card) (round_num : Int)
    (previous_bids : List (Player × Int)) (seed : Nat)
    (h : 1 ≤ round_num) :
    (0 ≤ RandomBot.make_bid hand round_num previous_bids seed ∧
      RandomBot.make_bid hand round_num previous_bids seed ≤ round_num) ∧
    (0 ≤ ConservativeBot.make_bid hand round_num previous_bids ∧
      ConservativeBot.make_bid hand round_num previous_bids ≤ round_num) ∧
    (0 ≤ AggressiveBot.make_bid hand round_num previous_bids ∧
      AggressiveBot.make_bid hand round_num previous_bids ≤ round_num) := by
  refine ⟨?_, ?_, ?_⟩
  · simp only [RandomBot.make_bid, randint]
    have hnz : round_num - 0 + 1 ≠ 0 := by omega
    have hpos : (0 : Int) < round_num - 0 + 1 := by omega
    have h1 := Int.emod_nonneg (seed : Int) hnz
    have h2 := Int.emod_lt_of_pos (seed : Int) hpos
    omega
  · simp only [ConservativeBot.make_bid]
    split
    · omega
    · exact ⟨le_min (by norm_num) (by omega), min_le_right _ _⟩
  · simp only [AggressiveBot.make_bid]
    exact ⟨le_trans zero_le_one (le_max_left _ _),
      max_le h (min_le_right _ _)⟩

/-- C3 witness: at `round_num = 1` all three bots bid inside `[0, 1]`. -/
theorem C3_bids_in_range_witness :
    (0 ≤ RandomBot.make_bid [] 1 [] 0 ∧ RandomBot.make_bid [] 1 [] 0 ≤ 1) ∧
    (0 ≤ ConservativeBot.make_bid [] 1 [] ∧
      ConservativeBot.make_bid [] 1 [] ≤ 1) ∧
    (0 ≤ AggressiveBot.make_bid [] 1 [] ∧
      AggressiveBot.make_bid [] 1 [] ≤ 1) :=
  C3_bids_in_range [] 1 [] 0 (by norm_num)

/-- C9: `AggressiveBot.make_bid` always bids at least 1 (the
`max(1, ...)` guard), so at `round_num = 0` its bid strictly exceeds
`round_num`. -/
theorem C9_aggressive_bids_at_least_one (hand : List Card)
    (round_num : Int) (previous_bids : List (Player × Int)) :
    1 ≤ AggressiveBot.make_bid hand round_num previous_bids ∧
    (round_num = 0 →
      round_num < AggressiveBot.make_bid hand round_num previous_bids) := by
  simp only [AggressiveBot.make_bid]
  have h1 : (1 : Int) ≤ max 1 (min (countStrong hand : Int) round_num) :=
    le_max_left _ _
  exact ⟨h1, fun h0 => by omega⟩

/-- C9 witness: on the empty hand at `round_num = 0` the bid is at least
1 and strictly above the round number. -/
theorem C9_witness :
    1 ≤ AggressiveBot.make_bid [] 0 [] ∧
    (0 : Int) < AggressiveBot.make_bid [] 0 [] :=
  ⟨(C9_aggressive_bids_at_least_one [] 0 []).1,
   (C9_aggressive_bids_at_least_one [] 0 []).2 rfl⟩

/-- C10: `ConservativeBot.make_bid` depends only on the hand and the
round number (it calls no randomness and ignores `previous_bids`),
returns 0 when the escapes in hand reach `round_num` and
`min(1, round_num)` otherwise, and never exceeds 1. -/
theorem C10_conservative_bid_deterministic (hand : List Card)
    (round_num : Int) (pb pb2 : List (Player × Int)) :
    ConservativeBot.make_bid hand round_num pb =
      (if (countEscapes hand : Int) ≥ round_num then 0
        else min 1 round_num) ∧
    ConservativeBot.make_bid hand round_num pb =
      ConservativeBot.make_bid hand round_num pb2 ∧
    ConservativeBot.make_bid hand round_num pb ≤ 1 := by
  refine ⟨rfl, rfl, ?_⟩
  simp only [ConservativeBot.make_bid]
  split
  · norm_num
  · exact min_le_left _ _

/-- C4 counterexample: `run_competition_headless` prints the final
(player, score) pairs in bot-list order (main.py line 174), not sorted:
with two bots scoring 0 and 5 the printed sequence is increasing. -/
theorem C4_counterexample :
    ¬ List.Chain' (fun a b : Player × Int => b.2 ≤ a.2)
      (headlessFinalReport [⟨0⟩, ⟨1⟩] fun p => if p.pid = 0 then 0 else 5) := by
  norm_num [headlessFinalReport, List.chain'_cons]

/-- C4 (amended): only `run_competition_with_gui` reports the final
cumulative scores sorted in descending score order (a permutation of the
score pairs with non-increasing scores); `run_competition_headless`
prints the final (player, score) pairs in bot-list order, unsorted. -/
theorem C4_final_scores_sorted (scores : List (Player × Int))
    (bots : List Player) (final_scores : Player → Int) :
    List.Chain' (fun a b : Player × Int => b.2 ≤ a.2)
      (sortedScores scores) ∧
    (sortedScores scores).Perm scores ∧
    headlessFinalReport bots final_scores =
      bots.map fun p => (p, final_scores p) := by
  refine ⟨?_, List.mergeSort_perm _ _, rfl⟩
  have hsorted := @List.sorted_mergeSort (Player × Int)
    (fun a b => decide (b.2 ≤ a.2))
    (fun a b c hab hbc => by
      simp only [decide_eq_true_eq] at *
      omega)
    (fun a b => by
      simp only [Bool.or_eq_true, decide_eq_true_eq]
      omega)
    scores
  have hchain := List.Pairwise.chain' hsorted
  simpa [sortedScores, List.Chain'] using hchain

/-- C6 counterexample: the trick Pirate, Skull King, Mermaid, Pirate
contains two equal-ranked special cards (the two Pirates), yet the
card-by-card resolution of section 4.1 awards the trick to the
later-played Pirate (the precedence cycle hands the lead from the first
Pirate to the Skull King, then to the Mermaid, which the second Pirate
captures), refuting that the earliest of two equal-ranked special cards
always wins the trick. -/
theorem C6_counterexample :
    trick_winner
        [(⟨0⟩, specialCard CardType.PIRATE),
         (⟨1⟩, specialCard CardType.SKULL_KING),
         (⟨2⟩, specialCard CardType.MERMAID),
         (⟨3⟩, specialCard CardType.PIRATE)] Suit.BLACK =
      some ⟨3⟩ ∧ (⟨3⟩ : Player) ≠ ⟨0⟩ := by
  decide

/-- C6 (amended): the special-card precedence is exactly as claimed —
MERMAID beats SKULL_KING, PIRATE beats MERMAID, SKULL_KING beats PIRATE,
and SKULL_KING does not beat MERMAID — and an equal-ranked special card
never takes the trick from the equal card currently holding it, so a
two-card trick of two equal-ranked special cards is won by the player
who played earliest. (In longer tricks the precedence cycle can pass the
lead so that a later equal-ranked card wins, per the counterexample.) -/
theorem C6_special_precedence (p q : Player) (trump : Suit)
    (ls : Option Suit) :
    trick_winner [(p, specialCard CardType.SKULL_KING),
      (q, specialCard CardType.MERMAID)] trump = some q ∧
    trick_winner [(p, specialCard CardType.MERMAID),
      (q, specialCard CardType.SKULL_KING)] trump = some p ∧
    trick_winner [(p, specialCard CardType.PIRATE),
      (q, specialCard CardType.MERMAID)] trump = some p ∧
    trick_winner [(p, specialCard CardType.MERMAID),
      (q, specialCard CardType.PIRATE)] trump = some q ∧
    trick_winner [(p, specialCard CardType.SKULL_KING),
      (q, specialCard CardType.PIRATE)] trump = some p ∧
    trick_winner [(p, specialCard CardType.PIRATE),
      (q, specialCard CardType.SKULL_KING)] trump = some q ∧
    trick_winner [(p, specialCard CardType.PIRATE),
      (q, specialCard CardType.PIRATE)] trump = some p ∧
    trick_winner [(p, specialCard CardType.MERMAID),
      (q, specialCard CardType.MERMAID)] trump = some p ∧
    trick_winner [(p, specialCard CardType.SKULL_KING),
      (q, specialCard CardType.SKULL_KING)] trump = some p ∧
    beats (specialCard CardType.PIRATE) (specialCard CardType.PIRATE)
      ls trump = false ∧
    beats (specialCard CardType.MERMAID) (specialCard CardType.MERMAID)
      ls trump = false ∧
    beats (specialCard CardType.SKULL_KING) (specialCard CardType.SKULL_KING)
      ls trump = false :=
  ⟨rfl, rfl, rfl, rfl, rfl, rfl, rfl, rfl, rfl, rfl, rfl, rfl⟩

/-- C7: the base round score of section 4.3 is exactly the claimed case
split on (bid, tricks won), with card-value bonuses added only on an
exact non-zero bid. -/
theorem C7_base_scoring (round_num bid tricks_won bonus : Int) :
    (bid = 0 → tricks_won = 0 →
      calculate_score round_num bid tricks_won bonus = 20 * round_num) ∧
    (bid = 0 → 0 < tricks_won →
      calculate_score round_num bid tricks_won bonus =
        -10 * round_num * tricks_won) ∧
    (0 < bid → tricks_won = bid →
      calculate_score round_num bid tricks_won bonus = 20 * bid + bonus) ∧
    (0 < bid → tricks_won ≠ bid →
      calculate_score round_num bid tricks_won bonus =
        -10 * |bid - tricks_won|) := by
  refine ⟨?_, ?_, ?_, ?_⟩
  · intro h0 ht
    simp [calculate_score, h0, ht]
  · intro h0 ht
    have hne : tricks_won ≠ 0 := by omega
    simp [calculate_score, h0, hne]
  · intro hb ht
    have hne : bid ≠ 0 := by omega
    simp [calculate_score, hne, ht]
  · intro hb ht
    have hne : bid ≠ 0 := by omega
    simp [calculate_score, hne, ht]

/-- C7 witness: the three scoring scenarios of the spec — round 1 zero
bid kept scores 20, round 3 exact bid of 2 scores 40, round 2 missed bid
of 1 scores −10. -/
theorem C7_witness :
    calculate_score 1 0 0 0 = 20 ∧
    calculate_score 3 2 2 0 = 40 ∧
    calculate_score 2 1 0 0 = -10 := by
  refine ⟨(C7_base_scoring 1 0 0 0).1 rfl rfl, ?_, ?_⟩
  · have h := (C7_base_scoring 3 2 2 0).2.2.1 (by norm_num) rfl
    rw [h]
    norm_num
  · have h := (C7_base_scoring 2 1 0 0).2.2.2 (by norm_num) (by norm_num)
    rw [h]
    decide

/-- C8: on a non-empty hand every bot's `play_card` returns a card of
that hand; on the empty hand every bot's `play_card` returns no card
(its `random.choice` fallback raises), so a non-empty hand is a
precondition of every bot's `play_card`. -/
theorem C8_play_card_in_hand (self : Player) (hand : List Card)
    (current_trick : List (Player × Card))
    (previous_tricks : List (List (Player × Card)))
    (bids tricks_won : Player → Int) (round_num : Int) (seed : Nat)
    (hne : hand ≠ []) :
    (∃ c, DummyPlayer.play_card hand current_trick previous_tricks bids
        tricks_won round_num seed = some c ∧ c ∈ hand) ∧
    (∃ c, RandomBot.play_card hand current_trick previous_tricks bids
        tricks_won round_num seed = some c ∧ c ∈ hand) ∧
    (∃ c, ConservativeBot.play_card hand current_trick previous_tricks
        bids tricks_won round_num seed = some c ∧ c ∈ hand) ∧
    (∃ c, AggressiveBot.play_card self hand current_trick previous_tricks
        bids tricks_won round_num seed = some c ∧ c ∈ hand) ∧
    (DummyPlayer.play_card [] current_trick previous_tricks bids
        tricks_won round_num seed = none ∧
      RandomBot.play_card [] current_trick previous_tricks bids
        tricks_won round_num seed = none ∧
      ConservativeBot.play_card [] current_trick previous_tricks bids
        tricks_won round_num seed = none ∧
      AggressiveBot.play_card self [] current_trick previous_tricks bids
        tricks_won round_num seed = none) := by
  obtain ⟨r, hr1, hr2⟩ := randomChoice_mem hne seed
  refine ⟨⟨r, hr1, hr2⟩, ⟨r, hr1, hr2⟩, ?_, ?_, ?_⟩
  · cases hesc : hand.filter fun c => c.card_type == CardType.ESCAPE with
    | cons e es =>
      refine ⟨e, by simp [ConservativeBot.play_card, hesc], ?_⟩
      exact List.mem_of_mem_filter
        (show e ∈ hand.filter fun c => c.card_type == CardType.ESCAPE by
          rw [hesc]; exact List.mem_cons_self _ _)
    | nil =>
      cases hnum : hand.filter fun c => c.card_type == CardType.NUMBER with
      | cons n ns =>
        refine ⟨pyMinBy Card.value n ns,
          by simp [ConservativeBot.play_card, hesc, hnum], ?_⟩
        exact List.mem_of_mem_filter
          (show pyMinBy Card.value n ns ∈
              hand.filter fun c => c.card_type == CardType.NUMBER by
            rw [hnum]; exact pyMinBy_mem Card.value n ns)
      | nil =>
        exact ⟨r, by simp [ConservativeBot.play_card, hesc, hnum, hr1], hr2⟩
  · by_cases hcond :
        0 < bids self - tricks_won self ∧ current_trick ≠ []
    · cases hspec : hand.filter fun c =>
          c.card_type == CardType.SKULL_KING ||
          c.card_type == CardType.PIRATE ||
          c.card_type == CardType.MERMAID with
      | cons s rest =>
        have hsubset : ∀ c, c ∈ s :: rest → c ∈ hand := by
          intro c hc
          exact List.mem_of_mem_filter
            (show c ∈ hand.filter fun c =>
                c.card_type == CardType.SKULL_KING ||
                c.card_type == CardType.PIRATE ||
                c.card_type == CardType.MERMAID by rw [hspec]; exact hc)
        cases hsk : (s :: rest).find? fun c =>
            c.card_type == CardType.SKULL_KING with
        | some c =>
          exact ⟨c,
            by simp [AggressiveBot.play_card, hcond, hspec, hsk],
            hsubset c (List.mem_of_find?_eq_some hsk)⟩
        | none =>
          cases hpi : (s :: rest).find? fun c =>
              c.card_type == CardType.PIRATE with
          | some c =>
            exact ⟨c,
              by simp [AggressiveBot.play_card, hcond, hspec, hsk, hpi],
              hsubset c (List.mem_of_find?_eq_some hpi)⟩
          | none =>
            exact ⟨s,
              by simp [AggressiveBot.play_card, hcond, hspec, hsk, hpi],
              hsubset s (List.mem_cons_self _ _)⟩
      | nil =>
        cases hnum : hand.filter fun c => c.card_type == CardType.NUMBER with
        | cons n ns =>
          refine ⟨pyMaxBy Card.value n ns,
            by simp [AggressiveBot.play_card, hcond, hspec, hnum], ?_⟩
          exact List.mem_of_mem_filter
            (show pyMaxBy Card.value n ns ∈
                hand.filter fun c => c.card_type == CardType.NUMBER by
              rw [hnum]; exact pyMaxBy_mem Card.value n ns)
        | nil =>
          exact ⟨r,
            by simp [AggressiveBot.play_card, hcond, hspec, hnum, hr1], hr2⟩
    · cases hesc : hand.filter fun c => c.card_type == CardType.ESCAPE with
      | cons e es =>
        refine ⟨e, ?_, ?_⟩
        · simp only [AggressiveBot.play_card]
          rw [if_neg hcond]
          simp [hesc]
        · exact List.mem_of_mem_filter
            (show e ∈ hand.filter fun c => c.card_type == CardType.ESCAPE by
              rw [hesc]; exact List.mem_cons_self _ _)
      | nil =>
        cases hnum : hand.filter fun c => c.card_type == CardType.NUMBER with
        | cons n ns =>
          refine ⟨pyMinBy Card.value n ns, ?_, ?_⟩
          · simp only [AggressiveBot.play_card]
            rw [if_neg hcond]
            simp [hesc, hnum]
          · exact List.mem_of_mem_filter
              (show pyMinBy Card.value n ns ∈
                  hand.filter fun c => c.card_type == CardType.NUMBER by
                rw [hnum]; exact pyMinBy_mem Card.value n ns)
        | nil =>
          refine ⟨r, ?_, hr2⟩
          simp only [AggressiveBot.play_card]
          rw [if_neg hcond]
          simp [hesc, hnum, hr1]
  · refine ⟨rfl, rfl, rfl, ?_⟩
    by_cases hcond :
        0 < bids self - tricks_won self ∧ current_trick ≠ [] <;>
      simp [AggressiveBot.play_card, hcond, randomChoice]

/-- C8 witness: `ConservativeBot` on the one-card hand consisting of an
Escape plays that Escape. -/
theorem C8_witness :
    ∃ c, ConservativeBot.play_card [specialCard CardType.ESCAPE] [] []
        (fun _ => 0) (fun _ => 0) 1 0 = some c ∧
      c ∈ [specialCard CardType.ESCAPE] :=
  (C8_play_card_in_hand ⟨0⟩ [specialCard CardType.ESCAPE] [] []
    (fun _ => 0) (fun _ => 0) 1 0 (by decide)).2.2.1

end SkullKing
